import Mathlib

/-!
Verification development for the Visual G-Assist plugin (`plugin.py`).

The plugin is a long-lived worker communicating with a host over a pipe:
it reads chunked UTF-8 input, decodes it as JSON, dispatches each entry of
`tool_calls` to a handler (`initialize`, `describe_screen`, `shutdown`),
and writes each result as a JSON object followed by the literal terminator
`<<END>>`.

All byte sequences and text are modelled as `List Nat`: a byte list holds
values < 256, a text list holds Unicode code points.  Machine-level I/O
(`ReadFile`/`WriteFile`) is modelled by explicit chunk lists and by the
returned frame bytes.  Fallible Python code is modelled with `Option` /
`Except`, where an `Except.error` is an uncaught Python exception escaping
the function.
-/

namespace VisualPlugin

/-- Code points of a Lean string literal, used to write ASCII byte/text
sequences readably. -/
def asciiBytes (s : String) : List Nat := s.data.map Char.toNat

/-- JSON values as produced by Python `json.loads`.  Integer literals decode
to `jnum`; numeric lexemes that are not plain integers (floats, `NaN`,
`Infinity`) are carried opaquely as `jother` with their raw lexeme, since no
routed operation of the plugin depends on their numeric value. -/
inductive JValue : Type where
  | jnull : JValue
  | jbool : Bool → JValue
  | jnum : Int → JValue
  | jother : List Nat → JValue
  | jstr : List Nat → JValue
  | jarr : List JValue → JValue
  | jobj : List (List Nat × JValue) → JValue

/-- Python `dict` lookup for JSON objects (`d[k]` / `d.get(k)` semantics):
later duplicate keys override earlier ones, as in `json.loads`. -/
def lookupV (kvs : List (List Nat × JValue)) (k : List Nat) : Option JValue :=
  (kvs.reverse.find? (fun p => p.1 = k)).map (fun p => p.2)

/-- Python `d.get(k, default)`. -/
def lookupD (kvs : List (List Nat × JValue)) (k : List Nat) (d : JValue) : JValue :=
  (lookupV kvs k).getD d

/-- Python equality test of an arbitrary JSON value against a string
constant (`value == "name"`). -/
def isStr (v : JValue) (s : List Nat) : Bool :=
  match v with
  | JValue.jstr t => t = s
  | _ => false

/-- Python truthiness of a JSON value (`if not prompt:`).  A non-integer
numeric lexeme is truthy unless it spells a zero float; no claim depends on
that case. -/
def truthy (v : JValue) : Bool :=
  match v with
  | JValue.jnull => false
  | JValue.jbool b => b
  | JValue.jnum n => n ≠ 0
  | JValue.jother _ => true
  | JValue.jstr s => s ≠ []
  | JValue.jarr l => !l.isEmpty
  | JValue.jobj kvs => !kvs.isEmpty

/-- Python exceptions that can escape the plugin's functions. -/
inductive PyError : Type where
  | attributeError : PyError
  | typeError : PyError
  | keyError : PyError
  | valueError : PyError
deriving DecidableEq

/-- The `Response` dictionary built by `generate_response`: key `success`
(required) and key `message` (optional). -/
structure Response : Type where
  success : Bool
  message : Option (List Nat)
deriving DecidableEq

/-- Embedding of `generate_response(success, message)`: the `message` key is
added only when `message` is truthy, i.e. present and non-empty. -/
def generate_response (success : Bool) (message : Option (List Nat)) : Response :=
  { success := success
    message :=
      match message with
      | none => none
      | some m => if m = [] then none else some m }

/-- ASCII code of a lowercase hex digit, as produced by Python's
`\uXXXX` escaping. -/
def hexDig (d : Nat) : Nat := if d < 10 then 48 + d else 87 + d

/-- Four lowercase hex digits of `n % 0x10000`, most significant first. -/
def hex4 (n : Nat) : List Nat :=
  [hexDig (n / 4096 % 16), hexDig (n / 256 % 16), hexDig (n / 16 % 16), hexDig (n % 16)]

/-- Escaping of one code point by Python `json.dumps` with the default
`ensure_ascii=True`: printable ASCII other than quote and backslash is
literal, the named short escapes are used for `\b \t \n \f \r`, everything
else becomes `\uXXXX`, with a surrogate pair for code points above
`0xFFFF`. -/
def escapeCP (c : Nat) : List Nat :=
  if c = 34 then [92, 34]
  else if c = 92 then [92, 92]
  else if c = 8 then [92, 98]
  else if c = 9 then [92, 116]
  else if c = 10 then [92, 110]
  else if c = 12 then [92, 102]
  else if c = 13 then [92, 114]
  else if 32 ≤ c ∧ c ≤ 126 then [c]
  else if c < 65536 then 92 :: 117 :: hex4 c
  else
    (92 :: 117 :: hex4 (55296 + (c - 65536) / 1024)) ++
      (92 :: 117 :: hex4 (56320 + (c - 65536) % 1024))

/-- Escaped body of a JSON string literal. -/
def escapeStr (s : List Nat) : List Nat := (s.map escapeCP).flatten

/-- Embedding of `json.dumps(response)` for a `Response` dictionary, with
Python's default separators: a space after each colon and comma, keys in
insertion order (`success` first). -/
def json_dumps (r : Response) : List Nat :=
  [123] ++ asciiBytes "\"success\": " ++
    (if r.success then asciiBytes "true" else asciiBytes "false") ++
    (match r.message with
     | none => []
     | some m => asciiBytes ", \"message\": " ++ [34] ++ escapeStr m ++ [34]) ++
  [125]

/-- UTF-8 encoding of one code point. -/
def utf8EncodeCP (c : Nat) : List Nat :=
  if c < 128 then [c]
  else if c < 2048 then [192 + c / 64, 128 + c % 64]
  else if c < 65536 then [224 + c / 4096, 128 + c / 64 % 64, 128 + c % 64]
  else [240 + c / 262144, 128 + c / 4096 % 64, 128 + c / 64 % 64, 128 + c % 64]

/-- UTF-8 encoding of a code-point sequence (`str.encode('utf-8')`). -/
def utf8Encode (l : List Nat) : List Nat := (l.map utf8EncodeCP).flatten

/-- Embedding of `write_response(response)`: the byte frame handed to
`WriteFile`, namely `(json.dumps(response) + '<<END>>').encode('utf-8')`. -/
def write_response (r : Response) : List Nat :=
  utf8Encode (json_dumps r ++ asciiBytes "<<END>>")

/-- Written from the spec's words (section 6, Output channel): each frame is
`<json-object><<END>>` with no separator byte and no trailing newline, the
JSON object has shape `{"success": <bool>, "message": "<string>"}` with the
`message` member omitted entirely when there is nothing to report. -/
def spec_frame (r : Response) : List Nat :=
  [123] ++ asciiBytes "\"success\": " ++
    (if r.success then asciiBytes "true" else asciiBytes "false") ++
    (match r.message with
     | none => []
     | some m => asciiBytes ", \"message\": " ++ [34] ++ escapeStr m ++ [34]) ++
  [125] ++ asciiBytes "<<END>>"

/-- Written from the claim's words for C3: the *compact* JSON serialization
(no whitespace at all, as in the spec's section 8 scenario byte strings)
followed by the terminator. -/
def compact_frame (r : Response) : List Nat :=
  [123] ++ asciiBytes "\"success\":" ++
    (if r.success then asciiBytes "true" else asciiBytes "false") ++
    (match r.message with
     | none => []
     | some m => asciiBytes ",\"message\":" ++ [34] ++ escapeStr m ++ [34]) ++
  [125] ++ asciiBytes "<<END>>"

/-- UTF-8 decoding with explicit fuel (first argument), one unit per decoded
code point; `utf8Decode` supplies enough fuel.  Follows Python's strict
decoder: continuation bytes are checked, overlong encodings, surrogates and
values above `0x10FFFF` are rejected. -/
def utf8DecodeAux : Nat → List Nat → Option (List Nat)
  | _, [] => some []
  | 0, _ :: _ => none
  | fuel + 1, b :: rest =>
    if b < 128 then (utf8DecodeAux fuel rest).map (fun t => b :: t)
    else if b < 194 then none
    else if b < 224 then
      match rest with
      | b2 :: rest2 =>
        if 128 ≤ b2 ∧ b2 < 192 then
          (utf8DecodeAux fuel rest2).map (fun t => ((b - 192) * 64 + (b2 - 128)) :: t)
        else none
      | [] => none
    else if b < 240 then
      match rest with
      | b2 :: b3 :: rest3 =>
        if (128 ≤ b2 ∧ b2 < 192) ∧ (128 ≤ b3 ∧ b3 < 192) ∧
            (b = 224 → 160 ≤ b2) ∧ (b = 237 → b2 < 160) then
          (utf8DecodeAux fuel rest3).map
            (fun t => ((b - 224) * 4096 + (b2 - 128) * 64 + (b3 - 128)) :: t)
        else none
      | _ => none
    else if b < 245 then
      match rest with
      | b2 :: b3 :: b4 :: rest4 =>
        if (128 ≤ b2 ∧ b2 < 192) ∧ (128 ≤ b3 ∧ b3 < 192) ∧ (128 ≤ b4 ∧ b4 < 192) ∧
            (b = 240 → 144 ≤ b2) ∧ (b = 244 → b2 < 144) then
          (utf8DecodeAux fuel rest4).map
            (fun t => ((b - 240) * 262144 + (b2 - 128) * 4096 + (b3 - 128) * 64 + (b4 - 128)) :: t)
        else none
      | _ => none
    else none

/-- Python `bytes.decode('utf-8')`, strict. -/
def utf8Decode (l : List Nat) : Option (List Nat) := utf8DecodeAux l.length l

/-- What one loop iteration of `read_command` extracts from a chunk whose
`ReadFile` call stored `data` (length = `message_bytes.value`) into the
4096-byte zero-initialized buffer: `buffer.decode('utf-8')[:message_bytes.value]`,
i.e. the decoding of the zero-padded buffer, truncated to the first
`data.length` *characters* (not bytes); `none` when decoding raises. -/
def processChunk (data : List Nat) : Option (List Nat) :=
  (utf8Decode (data ++ List.replicate (4096 - data.length) 0)).map
    (fun t => t.take data.length)

/-- Embedding of the chunk loop of `read_command`: each list element is one
`ReadFile` result (`none` = the call failed).  The loop stops after the
first chunk of fewer than `BUFFER_SIZE = 4096` bytes and concatenates the
extracted chunk texts; a failed read or a decode error yields `none`, and
an exhausted read list (the real loop would block forever waiting for the
host) is also modelled as `none`. -/
def readChunksText : List (Option (List Nat)) → Option (List Nat)
  | [] => none
  | none :: _ => none
  | some d :: rest =>
    match processChunk d with
    | none => none
    | some t =>
      if d.length < 4096 then some t
      else (readChunksText rest).map (fun t2 => t ++ t2)

/-- Written from the spec's words (section 4.2): all chunks are concatenated
*post UTF-8 decoding* in arrival order to form the full message text, the
loop ending with the first chunk shorter than the chunk capacity. -/
def specReadText : List (Option (List Nat)) → Option (List Nat)
  | [] => none
  | none :: _ => none
  | some d :: rest =>
    match utf8Decode d with
    | none => none
    | some t =>
      if d.length < 4096 then some t
      else (specReadText rest).map (fun t2 => t ++ t2)

/-- Consume an exact literal from the front of the input, returning the
remainder. -/
def consumeLit : List Nat → List Nat → Option (List Nat)
  | [], l => some l
  | _ :: _, [] => none
  | c :: ps, d :: ds => if c = d then consumeLit ps ds else none

/-- Value of one hex digit character. -/
def hexVal (c : Nat) : Option Nat :=
  if 48 ≤ c ∧ c ≤ 57 then some (c - 48)
  else if 97 ≤ c ∧ c ≤ 102 then some (c - 87)
  else if 65 ≤ c ∧ c ≤ 70 then some (c - 55)
  else none

/-- Parse exactly four hex digits into their value. -/
def parseHex4 : List Nat → Option (Nat × List Nat)
  | a :: b :: c :: d :: rest =>
    match hexVal a, hexVal b, hexVal c, hexVal d with
    | some va, some vb, some vc, some vd => some (va * 4096 + vb * 256 + vc * 16 + vd, rest)
    | _, _, _, _ => none
  | _ => none

/-- Parse the body of a JSON string literal (after the opening quote) up to
and including the closing quote, following Python `json`'s scanner: the
standard named escapes, `\uXXXX` escapes with adjacent surrogate pairs
combined (a lone surrogate escape is kept as its code point), raw control
characters rejected.  Fuel decreases once per produced character, so
`input length + 1` is always enough. -/
def parseJSB : Nat → List Nat → Option (List Nat × List Nat)
  | 0, _ => none
  | _ + 1, [] => none
  | fuel + 1, c :: rest =>
    if c = 34 then some ([], rest)
    else if c = 92 then
      match rest with
      | [] => none
      | e :: rest2 =>
        if e = 34 then (parseJSB fuel rest2).map (fun p => (34 :: p.1, p.2))
        else if e = 92 then (parseJSB fuel rest2).map (fun p => (92 :: p.1, p.2))
        else if e = 47 then (parseJSB fuel rest2).map (fun p => (47 :: p.1, p.2))
        else if e = 98 then (parseJSB fuel rest2).map (fun p => (8 :: p.1, p.2))
        else if e = 102 then (parseJSB fuel rest2).map (fun p => (12 :: p.1, p.2))
        else if e = 110 then (parseJSB fuel rest2).map (fun p => (10 :: p.1, p.2))
        else if e = 114 then (parseJSB fuel rest2).map (fun p => (13 :: p.1, p.2))
        else if e = 116 then (parseJSB fuel rest2).map (fun p => (9 :: p.1, p.2))
        else if e = 117 then
          match parseHex4 rest2 with
          | none => none
          | some (h, rest3) =>
            if 55296 ≤ h ∧ h < 56320 then
              match rest3 with
              | a :: b :: rest4 =>
                if a = 92 ∧ b = 117 then
                  match parseHex4 rest4 with
                  | some (h2, rest5) =>
                    if 56320 ≤ h2 ∧ h2 < 57344 then
                      (parseJSB fuel rest5).map
                        (fun p => ((65536 + (h - 55296) * 1024 + (h2 - 56320)) :: p.1, p.2))
                    else (parseJSB fuel rest3).map (fun p => (h :: p.1, p.2))
                  | none => (parseJSB fuel rest3).map (fun p => (h :: p.1, p.2))
                else (parseJSB fuel rest3).map (fun p => (h :: p.1, p.2))
              | _ => (parseJSB fuel rest3).map (fun p => (h :: p.1, p.2))
            else (parseJSB fuel rest3).map (fun p => (h :: p.1, p.2))
        else none
    else if c < 32 then none
    else (parseJSB fuel rest).map (fun p => (c :: p.1, p.2))

/-- Skip JSON whitespace. -/
def skipWs : List Nat → List Nat
  | c :: rest => if c = 32 ∨ c = 9 ∨ c = 10 ∨ c = 13 then skipWs rest else c :: rest
  | [] => []

/-- Longest leading run of decimal digits. -/
def digitSpan : List Nat → List Nat × List Nat
  | c :: rest =>
    if 48 ≤ c ∧ c ≤ 57 then
      let p := digitSpan rest
      (c :: p.1, p.2)
    else ([], c :: rest)
  | [] => ([], [])

/-- Numeric value of a digit string. -/
def digitsVal (ds : List Nat) : Nat := ds.foldl (fun a c => a * 10 + (c - 48)) 0

/-- Integer part of a JSON number: `0` or a nonzero digit followed by
digits (no leading zeros). -/
def parseIntDigits : List Nat → Option (List Nat × List Nat)
  | c :: rest =>
    if c = 48 then some ([48], rest)
    else if 49 ≤ c ∧ c ≤ 57 then
      let p := digitSpan rest
      some (c :: p.1, p.2)
    else none
  | [] => none

/-- Optional fraction part; `none` signals a syntax error (`.` without
digits). -/
def parseFrac : List Nat → Option (Option (List Nat) × List Nat)
  | 46 :: r =>
    let p := digitSpan r
    if p.1.isEmpty then none else some (some (46 :: p.1), p.2)
  | l => some (none, l)

/-- Optional exponent part; `none` signals a syntax error. -/
def parseExp : List Nat → Option (Option (List Nat) × List Nat)
  | c :: r =>
    if c = 101 ∨ c = 69 then
      let sp : List Nat × List Nat :=
        match r with
        | 43 :: rr => ([43], rr)
        | 45 :: rr => ([45], rr)
        | _ => ([], r)
      let p := digitSpan sp.2
      if p.1.isEmpty then none else some (some (c :: sp.1 ++ p.1), p.2)
    else some (none, c :: r)
  | [] => some (none, [])

/-- Parse a JSON number as Python `json` does (including the `NaN` and
`Infinity` extensions): plain integers become `jnum`, any other numeric
lexeme becomes `jother`. -/
def parseNumber (l : List Nat) : Option (JValue × List Nat) :=
  match consumeLit (asciiBytes "NaN") l with
  | some r => some (JValue.jother (asciiBytes "NaN"), r)
  | none =>
  match consumeLit (asciiBytes "Infinity") l with
  | some r => some (JValue.jother (asciiBytes "Infinity"), r)
  | none =>
  match consumeLit (asciiBytes "-Infinity") l with
  | some r => some (JValue.jother (asciiBytes "-Infinity"), r)
  | none =>
  let sl : Bool × List Nat :=
    match l with
    | 45 :: r => (true, r)
    | _ => (false, l)
  match parseIntDigits sl.2 with
  | none => none
  | some (ids, l2) =>
    match parseFrac l2 with
    | none => none
    | some (fr, l3) =>
      match parseExp l3 with
      | none => none
      | some (ex, l4) =>
        match fr, ex with
        | none, none =>
          let v : Int := Int.ofNat (digitsVal ids)
          some (JValue.jnum (if sl.1 then -v else v), l4)
        | _, _ =>
          some (JValue.jother ((if sl.1 then [45] else []) ++ ids ++ fr.getD [] ++ ex.getD []), l4)

/-- Task of one step of the recursive-descent JSON reader: parse a value,
parse the members of an object (after `{`), or parse the items of an array
(after `[`). -/
inductive PTask : Type where
  | val : List Nat → PTask
  | members : List (List Nat × JValue) → List Nat → PTask
  | items : List JValue → List Nat → PTask

/-- Result of one reader task. -/
inductive POut : Type where
  | vout : JValue → List Nat → POut
  | mout : List (List Nat × JValue) → List Nat → POut
  | iout : List JValue → List Nat → POut

/-- One recursive-descent step of the JSON reader, with explicit fuel so the
recursion is structural; every recursive call consumes input, so the fuel
supplied by `jsonParse` is always sufficient. -/
def parseStep : Nat → PTask → Option POut
  | 0, _ => none
  | fuel + 1, PTask.val input =>
    match skipWs input with
    | [] => none
    | c :: rest =>
      if c = 123 then
        match skipWs rest with
        | 125 :: rest2 => some (POut.vout (JValue.jobj []) rest2)
        | _ =>
          match parseStep fuel (PTask.members [] rest) with
          | some (POut.mout entries rest2) => some (POut.vout (JValue.jobj entries) rest2)
          | _ => none
      else if c = 91 then
        match skipWs rest with
        | 93 :: rest2 => some (POut.vout (JValue.jarr []) rest2)
        | _ =>
          match parseStep fuel (PTask.items [] rest) with
          | some (POut.iout items rest2) => some (POut.vout (JValue.jarr items) rest2)
          | _ => none
      else if c = 34 then
        match parseJSB (rest.length + 1) rest with
        | some (s, rest2) => some (POut.vout (JValue.jstr s) rest2)
        | none => none
      else
        match consumeLit (asciiBytes "true") (c :: rest) with
        | some r => some (POut.vout (JValue.jbool true) r)
        | none =>
        match consumeLit (asciiBytes "false") (c :: rest) with
        | some r => some (POut.vout (JValue.jbool false) r)
        | none =>
        match consumeLit (asciiBytes "null") (c :: rest) with
        | some r => some (POut.vout JValue.jnull r)
        | none =>
        match parseNumber (c :: rest) with
        | some (v, r) => some (POut.vout v r)
        | none => none
  | fuel + 1, PTask.members acc input =>
    match skipWs input with
    | 34 :: rest =>
      match parseJSB (rest.length + 1) rest with
      | some (key, rest2) =>
        match skipWs rest2 with
        | 58 :: rest3 =>
          match parseStep fuel (PTask.val rest3) with
          | some (POut.vout v rest4) =>
            match skipWs rest4 with
            | 44 :: rest5 => parseStep fuel (PTask.members (acc ++ [(key, v)]) rest5)
            | 125 :: rest5 => some (POut.mout (acc ++ [(key, v)]) rest5)
            | _ => none
          | _ => none
        | _ => none
      | none => none
    | _ => none
  | fuel + 1, PTask.items acc input =>
    match parseStep fuel (PTask.val input) with
    | some (POut.vout v rest) =>
      match skipWs rest with
      | 44 :: rest2 => parseStep fuel (PTask.items (acc ++ [v]) rest2)
      | 93 :: rest2 => some (POut.iout (acc ++ [v]) rest2)
      | _ => none
    | _ => none

/-- Python `json.loads` over a code-point sequence: parse one value with
surrounding whitespace allowed, requiring the whole input to be consumed. -/
def jsonParse (text : List Nat) : Option JValue :=
  match parseStep (2 * text.length + 2) (PTask.val text) with
  | some (POut.vout v rest) => if skipWs rest = [] then some v else none
  | _ => none

/-- Embedding of `read_command()`: run the chunk loop, then `json.loads` on
the accumulated text; both transport failures and `JSONDecodeError` are
caught and yield `None`. -/
def read_command (reads : List (Option (List Nat))) : Option JValue :=
  match readChunksText reads with
  | none => none
  | some t => jsonParse t

/-- Outcome of the external world for one `describe_screen` call, abstracting
the screenshot/HTTP pipeline inside its `try` block: `reqException` is a
raised `requests.RequestException` (the only caught class), `otherError e`
is any other exception raised in the block (e.g. `ValueError` from
`response.json()` or `KeyError` from `output['output']`), and `output res`
is a successful call whose `output['output']` field formats (via `f"{res}"`)
to the text `res`. -/
inductive ApiOutcome : Type where
  | reqException : ApiOutcome
  | otherError : PyError → ApiOutcome
  | output : List Nat → ApiOutcome

/-- Embedding of `describe_screen(params)`: a missing or falsy `prompt`
yields a failure `Response`; a `requests.RequestException` is converted to a
failure `Response`; any other exception from the pipeline escapes
(`Except.error`); `params.get` itself raises `AttributeError` when `params`
is not a dict. -/
def describe_screen (params : JValue) (env : ApiOutcome) : Except PyError Response :=
  match params with
  | JValue.jobj kvs =>
    if truthy (lookupD kvs (asciiBytes "prompt") JValue.jnull) = false then
      Except.ok (generate_response false (some (asciiBytes "Missing required parameter: prompt")))
    else
      match env with
      | ApiOutcome.reqException =>
        Except.ok (generate_response false (some (asciiBytes "Failed to check Screen Description")))
      | ApiOutcome.otherError e => Except.error e
      | ApiOutcome.output res => Except.ok (generate_response true (some res))
  | _ => Except.error PyError.attributeError

/-- Embedding of `initialize()`. -/
def initialize_fn : Response :=
  generate_response true (some (asciiBytes "Plugin initialized successfully"))

/-- Embedding of `shutdown()`. -/
def shutdown : Response :=
  generate_response true (some (asciiBytes "Plugin shutdown successfully"))

/-- The routing-failure `Response` of the final `else` branch of `main`. -/
def resp_unknown : Response :=
  generate_response false (some (asciiBytes "Unknown function call"))

/-- Embedding of the `if func == ... elif ...` dispatch chain of `main`; the
boolean is true exactly when the `shutdown` branch ran, which makes `main`
return right after writing the response. -/
def dispatchFunc (func : JValue) (params : JValue) (env : ApiOutcome) :
    Except PyError (Response × Bool) :=
  if isStr func (asciiBytes "initialize") then Except.ok (initialize_fn, false)
  else if isStr func (asciiBytes "describe_screen") then
    (describe_screen params env).map (fun r => (r, false))
  else if isStr func (asciiBytes "shutdown") then Except.ok ( shutdown, true)
  else Except.ok (resp_unknown, false)

/-- Embedding of one iteration of the `for tool_call in tool_calls` body:
`tool_call.get("func")` defaults to `None`, `tool_call.get("params", {})`
defaults to an empty dict; a non-dict entry raises `AttributeError`. -/
def dispatchToolCall (tool_call : JValue) (env : ApiOutcome) :
    Except PyError (Response × Bool) :=
  match tool_call with
  | JValue.jobj kvs =>
    dispatchFunc (lookupD kvs (asciiBytes "func") JValue.jnull)
      (lookupD kvs (asciiBytes "params") (JValue.jobj [])) env
  | _ => Except.error PyError.attributeError

/-- Python iteration (`for tool_call in tool_calls`) over an arbitrary
value: lists iterate their items, strings their one-character substrings,
dicts their keys; other values raise `TypeError`. -/
def iterVal (v : JValue) : Except PyError (List JValue) :=
  match v with
  | JValue.jarr l => Except.ok l
  | JValue.jstr s => Except.ok (s.map (fun c => JValue.jstr [c]))
  | JValue.jobj kvs => Except.ok (kvs.map (fun p => JValue.jstr p.1))
  | _ => Except.error PyError.typeError

/-- Embedding of the `for tool_call in tool_calls` loop of `main`: responses
are written in order, one per processed entry; the boolean records whether
the `shutdown` branch returned out of `main`.  `envs i` is the external
outcome for the `i`-th entry. -/
def processToolCalls : List JValue → (Nat → ApiOutcome) → Nat → Except PyError (List Response × Bool)
  | [], _, _ => Except.ok ([], false)
  | tc :: rest, envs, i =>
    match dispatchToolCall tc (envs i) with
    | Except.error e => Except.error e
    | Except.ok (r, stop) =>
      if stop then Except.ok ([r], true)
      else
        match processToolCalls rest envs (i + 1) with
        | Except.error e => Except.error e
        | Except.ok p => Except.ok (r :: p.1, p.2)

/-- Embedding of one `while True` cycle of `main` on a decoded command:
`command.get("tool_calls", [])` raises `AttributeError` on a non-dict
command, the result is iterated Python-style, and each entry dispatched. -/
def process_command (cmd : JValue) (envs : Nat → ApiOutcome) :
    Except PyError (List Response × Bool) :=
  match cmd with
  | JValue.jobj kvs =>
    match iterVal (lookupD kvs (asciiBytes "tool_calls") (JValue.jarr [])) with
    | Except.error e => Except.error e
    | Except.ok entries => processToolCalls entries envs 0
  | _ => Except.error PyError.attributeError

/-- The spec's lifecycle states (section 4.5). -/
inductive LState : Type where
  | RUNNING : LState
  | STOPPED : LState
deriving DecidableEq

/-- Embedding of the `while True` loop of `main` over a list of read
outcomes (`none` = `read_command()` returned `None`): a failed read is
logged and skipped, a command is processed and its responses written, and a
`shutdown` branch ends the loop in `STOPPED`.  An exhausted input list
leaves the loop blocked in `RUNNING`.  `envs i j` is the external outcome
of the `j`-th tool call of the `i`-th message. -/
def run_loop : List (Option JValue) → (Nat → Nat → ApiOutcome) → Nat →
    Except PyError (List Response × LState)
  | [], _, _ => Except.ok ([], LState.RUNNING)
  | none :: rest, envs, i => run_loop rest envs (i + 1)
  | some cmd :: rest, envs, i =>
    match process_command cmd (envs i) with
    | Except.error e => Except.error e
    | Except.ok (ws, stop) =>
      if stop then Except.ok (ws, LState.STOPPED)
      else
        match run_loop rest envs (i + 1) with
        | Except.error e => Except.error e
        | Except.ok p => Except.ok (ws ++ p.1, p.2)

/-- Strip the trailing `<<END>>` terminator, failing when absent. -/
def stripEnd (l : List Nat) : Option (List Nat) :=
  if 7 ≤ l.length ∧ l.drop (l.length - 7) = asciiBytes "<<END>>" then
    some (l.take (l.length - 7))
  else none

/-- Modelled from the spec: the repository contains no decoder for output
frames (section 8 only states `decode(encode(r)) == r`, decoding being
"strip the terminator, parse the JSON payload").  This parses exactly the
JSON object grammar the encoder emits — `{"success": <bool>}` or
`{"success": <bool>, "message": "<string>"}` — using the same JSON
string-literal scanner as the reader. -/
def parseRespObj (body : List Nat) : Option Response :=
  match consumeLit ([123] ++ asciiBytes "\"success\": ") body with
  | none => none
  | some r1 =>
    match
      (match consumeLit (asciiBytes "true") r1 with
       | some r2 => some ((true, r2) : Bool × List Nat)
       | none =>
         match consumeLit (asciiBytes "false") r1 with
         | some r2 => some ((false, r2) : Bool × List Nat)
         | none => none) with
    | none => none
    | some (b, r2) =>
      if r2 = [125] then some { success := b, message := none }
      else
        match consumeLit (asciiBytes ", \"message\": " ++ [34]) r2 with
        | none => none
        | some r3 =>
          match parseJSB (r3.length + 1) r3 with
          | none => none
          | some (m, r4) =>
            if r4 = [125] then some { success := b, message := some m } else none

/-- Modelled from the spec: decode an output frame — UTF-8 decode, strip the
`<<END>>` terminator, parse the JSON payload. -/
def parse_frame (bs : List Nat) : Option Response :=
  match utf8Decode bs with
  | none => none
  | some cps =>
    match stripEnd cps with
    | none => none
    | some body => parseRespObj body

/-- The function-name value of a tool-call entry, as the dispatch loop reads
it (`tool_call.get("func")`, defaulting to `None`). -/
def funcOf (e : JValue) : JValue :=
  match e with
  | JValue.jobj kvs => lookupD kvs (asciiBytes "func") JValue.jnull
  | _ => JValue.jnull

/-- Whether an entry routes to the reserved `shutdown` branch. -/
def isShutdownInv (e : JValue) : Bool := isStr (funcOf e) (asciiBytes "shutdown")

/-- Index of the first `shutdown` invocation of a command, if any. -/
def firstShutdownIdx : List JValue → Option Nat
  | [] => none
  | e :: rest =>
    if isShutdownInv e then some 0 else (firstShutdownIdx rest).map (fun k => k + 1)

/-- An entry whose dispatch returns rather than raising an exception. -/
def DispatchOk (e : JValue) (env : ApiOutcome) : Prop :=
  ∃ out, dispatchToolCall e env = Except.ok out

/-- The invocation list a decoded command yields: the command is a JSON
object and its (defaulted) `tool_calls` value is a list. -/
def CommandInvocations (cmd : JValue) (invs : List JValue) : Prop :=
  ∃ kvs, cmd = JValue.jobj kvs ∧
    lookupD kvs (asciiBytes "tool_calls") (JValue.jarr []) = JValue.jarr invs

/-- A tool-call entry of the shape the host protocol documents: a JSON
object whose (defaulted) `params` value is an object. -/
def WellShapedEntry (e : JValue) : Prop :=
  ∃ kvs, e = JValue.jobj kvs ∧
    ∃ pkvs, lookupD kvs (asciiBytes "params") (JValue.jobj []) = JValue.jobj pkvs

/-- Concrete fixture: an `initialize` invocation entry. -/
def invInit : JValue := JValue.jobj [(asciiBytes "func", JValue.jstr (asciiBytes "initialize"))]

/-- Concrete fixture: an unknown-function invocation entry. -/
def invBogus : JValue := JValue.jobj [(asciiBytes "func", JValue.jstr (asciiBytes "bogus"))]

/-- Concrete fixture: a `shutdown` invocation entry. -/
def invShutdown : JValue :=
  JValue.jobj [(asciiBytes "func", JValue.jstr (asciiBytes "shutdown"))]

/-- Concrete fixture: a command carrying an `initialize` and an unknown
invocation. -/
def cmdInitBogus : JValue :=
  JValue.jobj [(asciiBytes "tool_calls", JValue.jarr [invInit, invBogus])]

/-- Concrete fixture: a command carrying one `shutdown` invocation. -/
def cmdShutdown : JValue :=
  JValue.jobj [(asciiBytes "tool_calls", JValue.jarr [invShutdown])]

/-- Concrete fixture: an environment whose every external call raises
`requests.RequestException`. -/
def envReq : Nat → ApiOutcome := fun _ => ApiOutcome.reqException

/-- Concrete fixture: `envReq` for every message of the lifecycle loop. -/
def envReq2 : Nat → Nat → ApiOutcome := fun _ _ => ApiOutcome.reqException

/-! ## Helper lemmas: ASCII byte sequences survive UTF-8 encoding/decoding -/

lemma forall_append {P : Nat → Prop} {a b : List Nat} (ha : ∀ x ∈ a, P x)
    (hb : ∀ x ∈ b, P x) : ∀ x ∈ a ++ b, P x := by
  intro x hx
  rcases List.mem_append.mp hx with h | h
  exacts [ha x h, hb x h]

lemma utf8DecodeAux_ascii :
    ∀ (fuel : Nat) (l : List Nat), l.length ≤ fuel → (∀ b ∈ l, b < 128) →
      utf8DecodeAux fuel l = some l := by
  intro fuel
  induction fuel with
  | zero =>
    intro l hl _
    cases l with
    | nil => rfl
    | cons b t => simp at hl
  | succ n ih =>
    intro l hl hb
    cases l with
    | nil => rfl
    | cons b t =>
      have hb0 : b < 128 := hb b (by simp)
      have ht : utf8DecodeAux n t = some t :=
        ih t (by simpa using Nat.le_of_succ_le_succ hl)
          (fun x hx => hb x (by simp [hx]))
      simp [utf8DecodeAux, hb0, ht]

lemma utf8Decode_ascii (l : List Nat) (h : ∀ b ∈ l, b < 128) :
    utf8Decode l = some l :=
  utf8DecodeAux_ascii l.length l le_rfl h

lemma utf8EncodeCP_ascii (c : Nat) (h : c < 128) : utf8EncodeCP c = [c] := by
  simp [utf8EncodeCP, h]

lemma utf8Encode_ascii (l : List Nat) (h : ∀ c ∈ l, c < 128) : utf8Encode l = l := by
  induction l with
  | nil => rfl
  | cons c t ih =>
    have hc : c < 128 := h c (by simp)
    have ht : utf8Encode t = t := ih (fun x hx => h x (by simp [hx]))
    simp [utf8Encode] at ht
    simp [utf8Encode, utf8EncodeCP_ascii c hc, ht]

lemma hexDig_lt (d : Nat) (h : d < 16) : hexDig d < 128 := by
  unfold hexDig; split <;> omega

lemma hex4_ascii (n : Nat) : ∀ x ∈ hex4 n, x < 128 := by
  intro x hx
  simp [hex4] at hx
  rcases hx with rfl | rfl | rfl | rfl <;> exact hexDig_lt _ (by omega)

lemma escapeCP_ascii (c : Nat) : ∀ x ∈ escapeCP c, x < 128 := by
  intro x hx
  unfold escapeCP at hx
  split_ifs at hx with h1 h2 h3 h4 h5 h6 h7 h8 h9
  · simp at hx; omega
  · simp at hx; omega
  · simp at hx; omega
  · simp at hx; omega
  · simp at hx; omega
  · simp at hx; omega
  · simp at hx; omega
  · simp at hx; omega
  · simp only [List.mem_cons] at hx
    rcases hx with rfl | rfl | hx
    · omega
    · omega
    · exact hex4_ascii c x hx
  · simp only [List.cons_append, List.nil_append, List.mem_cons] at hx
    rcases hx with rfl | rfl | hx
    · omega
    · omega
    · rcases List.mem_append.mp hx with hx | hx
      · exact hex4_ascii _ x hx
      · simp only [List.mem_cons] at hx
        rcases hx with rfl | rfl | hx
        · omega
        · omega
        · exact hex4_ascii _ x hx

lemma escapeStr_ascii (s : List Nat) : ∀ x ∈ escapeStr s, x < 128 := by
  intro x hx
  unfold escapeStr at hx
  rcases List.mem_flatten.mp hx with ⟨l, hl, hxl⟩
  rcases List.mem_map.mp hl with ⟨c, _, hc⟩
  exact escapeCP_ascii c x (hc ▸ hxl)

lemma json_dumps_ascii (r : Response) : ∀ x ∈ json_dumps r, x < 128 := by
  obtain ⟨s, m⟩ := r
  unfold json_dumps
  apply forall_append
  · apply forall_append
    · apply forall_append
      · apply forall_append
        · decide
        · decide
      · cases s
        · show ∀ x ∈ asciiBytes "false", x < 128
          decide
        · show ∀ x ∈ asciiBytes "true", x < 128
          decide
    · cases m with
      | none =>
        show ∀ x ∈ ([] : List Nat), x < 128
        decide
      | some mm =>
        show ∀ x ∈ asciiBytes ", \"message\": " ++ [34] ++ escapeStr mm ++ [34], x < 128
        apply forall_append
        · apply forall_append
          · apply forall_append
            · decide
            · decide
          · exact escapeStr_ascii mm
        · decide
  · decide

lemma frame_text_ascii (r : Response) :
    ∀ x ∈ json_dumps r ++ asciiBytes "<<END>>", x < 128 :=
  forall_append (json_dumps_ascii r) (by decide)

lemma write_response_eq (r : Response) :
    write_response r = json_dumps r ++ asciiBytes "<<END>>" := by
  unfold write_response
  exact utf8Encode_ascii _ (frame_text_ascii r)

lemma spec_frame_eq (r : Response) :
    spec_frame r = json_dumps r ++ asciiBytes "<<END>>" := by
  unfold spec_frame json_dumps
  simp [List.append_assoc]

/-! ## Claim C3 -/

/-- C3, counterexample: the claim's "compact JSON serialization … bit-exact"
fails on the code.  For the initialize Response the code writes
`{"success": true, "message": "Plugin initialized successfully"}<<END>>`
(with a space after the colon and the comma, Python `json.dumps` default),
not the compact `{"success":true,...}` byte sequence shown in the spec's
section 8 scenarios. -/
theorem c3_compact_counterexample :
    write_response (generate_response true (some (asciiBytes "Plugin initialized successfully"))) ≠
      compact_frame (generate_response true (some (asciiBytes "Plugin initialized successfully"))) := by
  decide

/-- C3 (amended): for every Result, the frame written to the output channel
is the single-line JSON serialization of the Result with Python's default
separators (a space after each colon and comma), with keys `success` and —
exactly when the Result carries a non-empty message — `message`, followed
immediately by the ASCII bytes `<<END>>` with no intervening byte and no
trailing newline; a `None` or empty message produces no `message` member at
all.  The frame bytes are bit-exact (`spec_frame`). -/
theorem c3_frame_layout :
    (∀ r : Response, write_response r = spec_frame r) ∧
    (∀ b : Bool, generate_response b none = { success := b, message := none }) ∧
    (∀ b : Bool, generate_response b (some []) = { success := b, message := none }) ∧
    (∀ b : Bool, write_response (generate_response b (some [])) =
      write_response { success := b, message := none }) := by
  refine ⟨fun r => ?_, fun b => rfl, fun b => rfl, fun b => rfl⟩
  rw [write_response_eq, spec_frame_eq]

/-! ## Claim C8: decode after encode is the identity -/

/-- Unicode scalar values: the code points a Python `str` obtained from
ordinary text carries (excluding the CPython-internal lone surrogates). -/
def IsScalar (c : Nat) : Prop := c < 1114112 ∧ (c < 55296 ∨ 57344 ≤ c)

instance (c : Nat) : Decidable (IsScalar c) := by
  unfold IsScalar; infer_instance

lemma consumeLit_append (p rest : List Nat) : consumeLit p (p ++ rest) = some rest := by
  induction p with
  | nil => rfl
  | cons c t ih => simp [consumeLit, ih]

lemma stripEnd_append (x : List Nat) :
    stripEnd (x ++ asciiBytes "<<END>>") = some x := by
  have hlen : (x ++ asciiBytes "<<END>>").length = x.length + 7 := by
    simp [asciiBytes]
  have hsub : (x ++ asciiBytes "<<END>>").length - 7 = x.length := by omega
  have hd : (x ++ asciiBytes "<<END>>").drop ((x ++ asciiBytes "<<END>>").length - 7) =
      asciiBytes "<<END>>" := by
    rw [hsub, List.drop_left]
  have ht : (x ++ asciiBytes "<<END>>").take ((x ++ asciiBytes "<<END>>").length - 7) = x := by
    rw [hsub, List.take_left]
  unfold stripEnd
  rw [if_pos ⟨by omega, hd⟩, ht]

lemma hexVal_hexDig (d : Nat) (h : d < 16) : hexVal (hexDig d) = some d := by
  interval_cases d <;> decide

lemma parseHex4_hex4 (n : Nat) (h : n < 65536) (rest : List Nat) :
    parseHex4 (hex4 n ++ rest) = some (n, rest) := by
  unfold hex4
  simp only [List.cons_append, List.nil_append]
  simp [parseHex4, hexVal_hexDig _ (show n / 4096 % 16 < 16 by omega),
    hexVal_hexDig _ (show n / 256 % 16 < 16 by omega),
    hexVal_hexDig _ (show n / 16 % 16 < 16 by omega),
    hexVal_hexDig _ (show n % 16 < 16 by omega)]
  omega

lemma parseJSB_escapeCP (c : Nat) (hc1 : c < 1114112) (hc2 : c < 55296 ∨ 57344 ≤ c)
    (fuel : Nat) (rest : List Nat) :
    parseJSB (fuel + 1) (escapeCP c ++ rest) =
      (parseJSB fuel rest).map (fun p => (c :: p.1, p.2)) := by
  unfold escapeCP
  split_ifs with h1 h2 h3 h4 h5 h6 h7 h8 h9
  · subst h1; simp [parseJSB]
  · subst h2; simp [parseJSB]
  · subst h3; simp [parseJSB]
  · subst h4; simp [parseJSB]
  · subst h5; simp [parseJSB]
  · subst h6; simp [parseJSB]
  · subst h7; simp [parseJSB]
  · have hne34 : ¬(c = 34) := h1
    have hne92 : ¬(c = 92) := h2
    have hge : ¬(c < 32) := by omega
    simp [parseJSB, hne34, hne92, hge]
  · have hx : parseHex4 (hex4 c ++ rest) = some (c, rest) := parseHex4_hex4 c (by omega) rest
    have hno : ¬(55296 ≤ c ∧ c < 56320) := by omega
    simp only [List.cons_append]
    simp [parseJSB, hx, hno]
  · obtain ⟨q, r2, hq, hr2, hceq⟩ :
        ∃ q r2, q < 1024 ∧ r2 < 1024 ∧ c = 65536 + q * 1024 + r2 :=
      ⟨(c - 65536) / 1024, (c - 65536) % 1024, by omega, by omega, by omega⟩
    have hdiv : 55296 + (c - 65536) / 1024 = 55296 + q := by omega
    have hmod : 56320 + (c - 65536) % 1024 = 56320 + r2 := by omega
    rw [hdiv, hmod]
    have hhi : parseHex4 (hex4 (55296 + q) ++ (92 :: 117 :: (hex4 (56320 + r2) ++ rest))) =
        some (55296 + q, 92 :: 117 :: (hex4 (56320 + r2) ++ rest)) :=
      parseHex4_hex4 _ (by omega) _
    have hlo : parseHex4 (hex4 (56320 + r2) ++ rest) = some (56320 + r2, rest) :=
      parseHex4_hex4 _ (by omega) _
    have hcnd1 : 55296 ≤ 55296 + q ∧ 55296 + q < 56320 := by omega
    have hcnd2 : 56320 ≤ 56320 + r2 ∧ 56320 + r2 < 57344 := by omega
    simp only [List.cons_append, List.append_assoc, List.nil_append]
    simp [parseJSB, hhi, hlo, hcnd1, hcnd2]
    have hval2 : 65536 + q * 1024 + r2 = c := by omega
    rw [hval2]

lemma escapeStr_cons (c : Nat) (t : List Nat) :
    escapeStr (c :: t) = escapeCP c ++ escapeStr t := by
  simp [escapeStr]

lemma escapeCP_length_pos (c : Nat) : 1 ≤ (escapeCP c).length := by
  unfold escapeCP
  split_ifs <;> simp [hex4]

lemma escapeStr_length_ge (s : List Nat) : s.length ≤ (escapeStr s).length := by
  induction s with
  | nil => simp [escapeStr]
  | cons c t ih =>
    rw [escapeStr_cons]
    have := escapeCP_length_pos c
    simp only [List.length_cons, List.length_append]
    omega

lemma parseJSB_escapeStr (m : List Nat) (hm : ∀ c ∈ m, IsScalar c) :
    ∀ (fuel : Nat) (rest : List Nat),
      parseJSB (m.length + (fuel + 1)) (escapeStr m ++ (34 :: rest)) = some (m, rest) := by
  induction m with
  | nil =>
    intro fuel rest
    simp [escapeStr, parseJSB]
  | cons c t ih =>
    intro fuel rest
    obtain ⟨hc1, hc2⟩ := hm c (by simp)
    rw [escapeStr_cons, List.append_assoc]
    have hfuel : (c :: t).length + (fuel + 1) = (t.length + (fuel + 1)) + 1 := by
      simp only [List.length_cons]; omega
    rw [hfuel, parseJSB_escapeCP c hc1 hc2]
    rw [ih (fun x hx => hm x (by simp [hx])) fuel rest]
    rfl

lemma parseJSB_escapeStr_fuel (m : List Nat) (hm : ∀ c ∈ m, IsScalar c)
    (fuel : Nat) (h : m.length + 1 ≤ fuel) (rest : List Nat) :
    parseJSB fuel (escapeStr m ++ (34 :: rest)) = some (m, rest) := by
  have h2 : fuel = m.length + ((fuel - m.length - 1) + 1) := by omega
  rw [h2, parseJSB_escapeStr m hm]

lemma ascii_succKey :
    asciiBytes "\"success\": " = [34, 115, 117, 99, 99, 101, 115, 115, 34, 58, 32] := rfl

lemma ascii_msgKey :
    asciiBytes ", \"message\": " = [44, 32, 34, 109, 101, 115, 115, 97, 103, 101, 34, 58, 32] := rfl

lemma ascii_true : asciiBytes "true" = [116, 114, 117, 101] := rfl

lemma ascii_false : asciiBytes "false" = [102, 97, 108, 115, 101] := rfl

lemma parseRespObj_dumps (r : Response)
    (hm : ∀ m, r.message = some m → ∀ c ∈ m, IsScalar c) :
    parseRespObj (json_dumps r) = some r := by
  obtain ⟨s, m⟩ := r
  have hm2 : ∀ mm, m = some mm → ∀ c ∈ mm, IsScalar c := by
    intro mm h
    exact hm mm (by simp [h])
  cases m with
  | none =>
    unfold json_dumps parseRespObj
    cases s <;>
      simp [ascii_succKey, ascii_msgKey, ascii_true, ascii_false,
        List.cons_append, List.nil_append, List.append_assoc, consumeLit]
  | some mm =>
    have hsc : ∀ c ∈ mm, IsScalar c := hm2 mm rfl
    have hp : parseJSB ((escapeStr mm).length + 2 + 1) (escapeStr mm ++ [34, 125]) =
        some (mm, [125]) :=
      parseJSB_escapeStr_fuel mm hsc _ (by have := escapeStr_length_ge mm; omega) [125]
    unfold json_dumps parseRespObj
    cases s <;>
      simp [ascii_succKey, ascii_msgKey, ascii_true, ascii_false,
        List.cons_append, List.nil_append, List.append_assoc, consumeLit, hp]

/-- C8: decoding an encoded frame restores the Result.  The decoder is the
spec-modelled `parse_frame`; the hypothesis restricts the message to
Unicode scalar values (the code points of ordinary Python text). -/
theorem c8_decode_encode (r : Response)
    (hm : ∀ m, r.message = some m → ∀ c ∈ m, IsScalar c) :
    parse_frame (write_response r) = some r := by
  rw [write_response_eq]
  unfold parse_frame
  rw [utf8Decode_ascii _ (frame_text_ascii r)]
  simp [stripEnd_append, parseRespObj_dumps r hm]

/-- C8, witness: the round trip evaluated at a concrete Result with a
message, and at one without. -/
theorem c8_decode_encode_witness :
    parse_frame (write_response { success := true, message := some [111, 107] }) =
      some { success := true, message := some [111, 107] } ∧
    parse_frame (write_response { success := false, message := none }) =
      some { success := false, message := none } := by
  constructor
  · exact c8_decode_encode _ (by intro m hm; injection hm with h; subst h; decide)
  · exact c8_decode_encode _ (by intro m hm; cases hm)

/-! ## Helper lemmas: the dispatch chain and the invocation loop -/

lemma isStr_iff (v : JValue) (s : List Nat) : isStr v s = true ↔ v = JValue.jstr s := by
  cases v <;> simp [isStr]

lemma dispatchToolCall_flag (e : JValue) (env : ApiOutcome) (r : Response) (b : Bool)
    (h : dispatchToolCall e env = Except.ok (r, b)) : b = isShutdownInv e := by
  cases e <;> simp [dispatchToolCall] at h
  case jobj kvs =>
    simp only [isShutdownInv, funcOf]
    unfold dispatchFunc at h
    split_ifs at h with h1 h2 h3
    · simp only [Except.ok.injEq, Prod.mk.injEq] at h
      rcases h with ⟨h4, h5⟩
      subst h5
      rw [(isStr_iff _ _).mp h1]
      decide
    · cases hds : describe_screen (lookupD kvs (asciiBytes "params") (JValue.jobj [])) env with
      | error pe => rw [hds] at h; simp [Except.map] at h
      | ok r2 =>
        rw [hds] at h
        simp only [Except.map, Except.ok.injEq, Prod.mk.injEq] at h
        rcases h with ⟨h4, h5⟩
        subst h5
        rw [(isStr_iff _ _).mp h2]
        decide
    · simp only [Except.ok.injEq, Prod.mk.injEq] at h
      rcases h with ⟨h4, h5⟩
      subst h5
      exact h3.symm
    · simp only [Except.ok.injEq, Prod.mk.injEq] at h
      rcases h with ⟨h4, h5⟩
      subst h5
      simp only [Bool.not_eq_true] at h3
      exact h3.symm

lemma dispatchToolCall_stop (e : JValue) (env : ApiOutcome) (r : Response)
    (h : dispatchToolCall e env = Except.ok (r, true)) : r = shutdown := by
  cases e <;> simp [dispatchToolCall] at h
  case jobj kvs =>
    unfold dispatchFunc at h
    split_ifs at h with h1 h2 h3
    · simp at h
    · cases hds : describe_screen (lookupD kvs (asciiBytes "params") (JValue.jobj [])) env with
      | error pe => rw [hds] at h; simp [Except.map] at h
      | ok r2 => rw [hds] at h; simp [Except.map] at h
    · simp only [Except.ok.injEq, Prod.mk.injEq] at h
      exact h.1.symm
    · simp at h

lemma processToolCalls_spec :
    ∀ (invs : List JValue) (envs : Nat → ApiOutcome) (i : Nat),
      (∀ j e, invs[j]? = some e → DispatchOk e (envs (i + j))) →
      ∃ ws stop, processToolCalls invs envs i = Except.ok (ws, stop) ∧
        (match firstShutdownIdx invs with
         | none => ws.length = invs.length ∧ stop = false
         | some k => ws.length = k + 1 ∧ stop = true) ∧
        (∀ j r, ws[j]? = some r →
          ∃ e b, invs[j]? = some e ∧ dispatchToolCall e (envs (i + j)) = Except.ok (r, b)) := by
  intro invs
  induction invs with
  | nil =>
    intro envs i _
    refine ⟨[], false, rfl, by simp [firstShutdownIdx], ?_⟩
    intro j r hr
    simp at hr
  | cons tc rest ih =>
    intro envs i h
    obtain ⟨⟨r, b⟩, hd⟩ := h 0 tc (by simp)
    rw [Nat.add_zero] at hd
    have hb := dispatchToolCall_flag tc (envs i) r b hd
    cases b with
    | true =>
      refine ⟨[r], true, ?_, ?_, ?_⟩
      · simp [processToolCalls, hd]
      · simp [firstShutdownIdx, ← hb]
      · intro j r2 hr2
        cases j with
        | zero =>
          simp at hr2
          exact ⟨tc, true, by simp, by rw [Nat.add_zero, ← hr2]; exact hd⟩
        | succ jj => simp at hr2
    | false =>
      obtain ⟨ws, stop, hpr, hcnt, hcorr⟩ := ih envs (i + 1) (fun j e he => by
        have h2 := h (j + 1) e (by simpa using he)
        have harith : i + (j + 1) = i + 1 + j := by omega
        rwa [harith] at h2)
      refine ⟨r :: ws, stop, ?_, ?_, ?_⟩
      · simp [processToolCalls, hd, hpr]
      · have hsd : isShutdownInv tc = false := hb.symm
        unfold firstShutdownIdx
        rw [hsd]
        simp only [Bool.false_eq_true, if_false]
        cases hfs : firstShutdownIdx rest with
        | none =>
          rw [hfs] at hcnt
          simp at hcnt ⊢
          exact hcnt
        | some k =>
          rw [hfs] at hcnt
          simp at hcnt ⊢
          exact hcnt
      · intro j r2 hr2
        cases j with
        | zero =>
          simp at hr2
          exact ⟨tc, false, by simp, by rw [Nat.add_zero, ← hr2]; exact hd⟩
        | succ jj =>
          simp only [List.getElem?_cons_succ] at hr2
          obtain ⟨e, b2, he, hde⟩ := hcorr jj r2 hr2
          refine ⟨e, b2, by simpa using he, ?_⟩
          have harith : i + (jj + 1) = i + 1 + jj := by omega
          rw [harith]
          exact hde

lemma processToolCalls_stop_last :
    ∀ (invs : List JValue) (envs : Nat → ApiOutcome) (i : Nat) (ws : List Response),
      processToolCalls invs envs i = Except.ok (ws, true) →
      ws ≠ [] ∧ ws.getLast? = some shutdown := by
  intro invs
  induction invs with
  | nil =>
    intro envs i ws h
    simp [processToolCalls] at h
  | cons tc rest ih =>
    intro envs i ws h
    unfold processToolCalls at h
    cases hd : dispatchToolCall tc (envs i) with
    | error e => rw [hd] at h; simp at h
    | ok p =>
      obtain ⟨r, b⟩ := p
      rw [hd] at h
      cases b with
      | true =>
        simp only [if_true, Except.ok.injEq, Prod.mk.injEq, and_true] at h
        subst h
        exact ⟨by simp, by simp [dispatchToolCall_stop tc (envs i) r hd]⟩
      | false =>
        simp only [if_false, Bool.false_eq_true] at h
        cases hpr : processToolCalls rest envs (i + 1) with
        | error e => rw [hpr] at h; simp at h
        | ok p2 =>
          obtain ⟨ws2, stop2⟩ := p2
          rw [hpr] at h
          simp only [Except.ok.injEq, Prod.mk.injEq] at h
          obtain ⟨hw, hs⟩ := h
          subst hs
          obtain ⟨hne, hlast⟩ := ih envs (i + 1) ws2 hpr
          subst hw
          cases ws2 with
          | nil => exact absurd rfl hne
          | cons w ws3 =>
            refine ⟨by simp, ?_⟩
            rw [List.getLast?_cons_cons]
            exact hlast

lemma dispatchOk_of_wellShaped (e : JValue) (env : ApiOutcome)
    (he : WellShapedEntry e) (henv : ∀ pe, env ≠ ApiOutcome.otherError pe) :
    DispatchOk e env := by
  obtain ⟨kvs, rfl, pkvs, hp⟩ := he
  unfold DispatchOk
  simp only [dispatchToolCall]
  unfold dispatchFunc
  split_ifs with h1 h2 h3
  · exact ⟨_, rfl⟩
  · rw [hp]
    cases env with
    | otherError pe => exact absurd rfl (henv pe)
    | reqException =>
      simp only [describe_screen]
      split_ifs <;> exact ⟨_, rfl⟩
    | output res =>
      simp only [describe_screen]
      split_ifs <;> exact ⟨_, rfl⟩
  · exact ⟨_, rfl⟩
  · exact ⟨_, rfl⟩

lemma processChunk_ascii (d : List Nat) (_hlen : d.length ≤ 4096)
    (hd : ∀ b ∈ d, b < 128) : processChunk d = some d := by
  unfold processChunk
  have hall : ∀ b ∈ d ++ List.replicate (4096 - d.length) 0, b < 128 :=
    forall_append hd (fun x hx => by
      have := List.eq_of_mem_replicate hx
      omega)
  rw [utf8Decode_ascii _ hall]
  simp [List.take_left]

lemma readChunksText_short_ascii (d : List Nat) (hlen : d.length < 4096)
    (hd : ∀ b ∈ d, b < 128) : readChunksText [some d] = some d := by
  unfold readChunksText
  rw [processChunk_ascii d (by omega) hd]
  simp [hlen]

/-! ## Claim C1 -/

/-- C1: a valid Command with invocation list `invs`, each of whose
invocations dispatches without raising, writes exactly one Result per
processed invocation, in invocation order: all `invs.length` of them when no
invocation routes to `shutdown`, and exactly `k + 1` of them when the first
`shutdown` invocation sits at index `k`, the loop then stopping and
abandoning the rest; zero invocations yield zero writes and no stop. -/
theorem c1_one_result_per_invocation (cmd : JValue) (invs : List JValue)
    (envs : Nat → ApiOutcome)
    (hcmd : CommandInvocations cmd invs)
    (hdisp : ∀ j e, invs[j]? = some e → DispatchOk e (envs j)) :
    ∃ ws stop, process_command cmd envs = Except.ok (ws, stop) ∧
      (match firstShutdownIdx invs with
       | none => ws.length = invs.length ∧ stop = false
       | some k => ws.length = k + 1 ∧ stop = true) ∧
      (∀ j r, ws[j]? = some r →
        ∃ e b, invs[j]? = some e ∧ dispatchToolCall e (envs j) = Except.ok (r, b)) := by
  obtain ⟨kvs, rfl, htc⟩ := hcmd
  obtain ⟨ws, stop, hpr, hcnt, hcorr⟩ :=
    processToolCalls_spec invs envs 0 (fun j e he => by simpa using hdisp j e he)
  refine ⟨ws, stop, ?_, hcnt, ?_⟩
  · simp only [process_command]
    rw [htc]
    simpa [iterVal] using hpr
  · intro j r hr
    obtain ⟨e, b, he, hde⟩ := hcorr j r hr
    exact ⟨e, b, he, by simpa using hde⟩

/-- C1, witness: a command with an `initialize` and an unknown invocation
yields exactly two Results in order and no stop. -/
theorem c1_witness :
    ∃ ws stop,
      process_command cmdInitBogus envReq = Except.ok (ws, stop) ∧
      (match firstShutdownIdx [invInit, invBogus] with
       | none => ws.length = ([invInit, invBogus] : List JValue).length ∧ stop = false
       | some k => ws.length = k + 1 ∧ stop = true) ∧
      (∀ (j : Nat) (r : Response), ws[j]? = some r →
        ∃ e b, ([invInit, invBogus] : List JValue)[j]? = some e ∧
          dispatchToolCall e (envReq j) = Except.ok (r, b)) :=
  by
  refine c1_one_result_per_invocation cmdInitBogus [invInit, invBogus] envReq ⟨_, rfl, ?_⟩ ?_
  · rfl
  · intro j e he
    cases j with
    | zero =>
      simp only [List.getElem?_cons_zero, Option.some.injEq] at he
      subst he
      exact ⟨_, rfl⟩
    | succ jj =>
      cases jj with
      | zero =>
        simp only [List.getElem?_cons_succ, List.getElem?_cons_zero, Option.some.injEq] at he
        subst he
        exact ⟨_, rfl⟩
      | succ jjj =>
        simp only [List.getElem?_cons_succ] at he
        simp at he

/-! ## Claim C2 -/

/-- C2, counterexample: the claim is false as stated.  The channel input
`[1]` is accepted (valid JSON), but processing the decoded command raises an
uncaught `AttributeError` (`command.get` on a list), which escapes the
Lifecycle Loop and kills the process without a `shutdown` invocation. -/
theorem c2_crash_counterexample :
    read_command [some (asciiBytes "[1]")] = some (JValue.jarr [JValue.jnum 1]) ∧
    process_command (JValue.jarr [JValue.jnum 1]) (fun _ => ApiOutcome.reqException) =
      Except.error PyError.attributeError := by
  constructor
  · have h1 : readChunksText [some (asciiBytes "[1]")] = some (asciiBytes "[1]") :=
      readChunksText_short_ascii _ (by decide) (by decide)
    unfold read_command
    rw [h1]
    rfl
  · rfl

/-- C2 (amended): no unhandled fault escapes the Lifecycle Loop provided the
decoded Command is a JSON object, its (defaulted) `tool_calls` value is a
list of objects whose (defaulted) `params` values are objects, and the
`describe_screen` pipeline raises nothing beyond
`requests.RequestException`; otherwise (non-object command, non-object
entry, non-object `params`, or another exception from the pipeline) an
exception escapes and the process dies. -/
theorem c2_no_fault_when_wellshaped (cmd : JValue) (invs : List JValue)
    (envs : Nat → ApiOutcome)
    (hcmd : CommandInvocations cmd invs)
    (hshape : ∀ e ∈ invs, WellShapedEntry e)
    (henv : ∀ i pe, envs i ≠ ApiOutcome.otherError pe) :
    ∃ res, process_command cmd envs = Except.ok res := by
  obtain ⟨kvs, rfl, htc⟩ := hcmd
  obtain ⟨ws, stop, hpr, -, -⟩ :=
    processToolCalls_spec invs envs 0 (fun j e he =>
      dispatchOk_of_wellShaped e _
        (hshape e (List.mem_iff_getElem?.mpr ⟨j, he⟩))
        (henv _))
  refine ⟨(ws, stop), ?_⟩
  simp only [process_command]
  rw [htc]
  simpa [iterVal] using hpr

/-- C2, witness for the amended theorem: a well-shaped command processes
without a fault. -/
theorem c2_witness :
    ∃ res, process_command cmdShutdown envReq = Except.ok res :=
  by
  refine c2_no_fault_when_wellshaped cmdShutdown [invShutdown] envReq ⟨_, rfl, ?_⟩ ?_ ?_
  · rfl
  · intro e he
    simp only [List.mem_singleton] at he
    subst he
    exact ⟨_, rfl, [], rfl⟩
  · intro i pe h
    cases h

/-! ## Claim C4 -/

/-- C4: dispatching the reserved `initialize` invocation always produces
`Result{success: true, message: "Plugin initialized successfully"}`;
dispatching `shutdown` always produces
`Result{success: true, message: "Plugin shutdown successfully"}` together
with the stop signal; and whenever the Lifecycle Loop reaches `STOPPED`,
the last written Result is exactly that shutdown Result (so the loop
terminates only after writing it). -/
theorem c4_lifecycle_signals :
    (∀ p env, dispatchFunc (JValue.jstr (asciiBytes "initialize")) p env =
      Except.ok (initialize_fn, false)) ∧
    initialize_fn =
      { success := true, message := some (asciiBytes "Plugin initialized successfully") } ∧
    (∀ p env, dispatchFunc (JValue.jstr (asciiBytes "shutdown")) p env =
      Except.ok ( shutdown, true)) ∧
    shutdown =
      { success := true, message := some (asciiBytes "Plugin shutdown successfully") } ∧
    (∀ msgs envs i ws, run_loop msgs envs i = Except.ok (ws, LState.STOPPED) →
      ws ≠ [] ∧ ws.getLast? = some shutdown) := by
  refine ⟨fun p env => rfl, rfl, fun p env => rfl, rfl, ?_⟩
  intro msgs
  induction msgs with
  | nil =>
    intro envs i ws h
    simp [run_loop] at h
  | cons msg rest ih =>
    intro envs i ws h
    cases msg with
    | none =>
      simp only [run_loop] at h
      exact ih envs (i + 1) ws h
    | some cmd =>
      simp only [run_loop] at h
      cases hpc : process_command cmd (envs i) with
      | error e => rw [hpc] at h; simp at h
      | ok p =>
        obtain ⟨ws1, stop⟩ := p
        rw [hpc] at h
        cases stop with
        | true =>
          simp at h
          subst h
          unfold process_command at hpc
          cases cmd <;> simp at hpc
          case jobj kvs =>
            cases hit : iterVal (lookupD kvs (asciiBytes "tool_calls") (JValue.jarr [])) with
            | error e => rw [hit] at hpc; simp at hpc
            | ok entries =>
              rw [hit] at hpc
              exact processToolCalls_stop_last entries (envs i) 0 _ hpc
        | false =>
          simp only [Bool.false_eq_true, if_false] at h
          cases hrl : run_loop rest envs (i + 1) with
          | error e => rw [hrl] at h; simp at h
          | ok p2 =>
            obtain ⟨ws2, st2⟩ := p2
            rw [hrl] at h
            simp only [Except.ok.injEq, Prod.mk.injEq] at h
            obtain ⟨hw, hst⟩ := h
            subst hst
            obtain ⟨hne, hlast⟩ := ih envs (i + 1) ws2 hrl
            subst hw
            cases ws2 with
            | nil => exact absurd rfl hne
            | cons w ws3 =>
              refine ⟨by simp, ?_⟩
              rw [List.getLast?_append_cons]
              exact hlast

/-- C4, witness: a one-invocation `shutdown` command drives the loop to
`STOPPED` with the shutdown Result as the last (and only) write. -/
theorem c4_witness :
    run_loop [some cmdShutdown] envReq2 0 = Except.ok ([ shutdown], LState.STOPPED) ∧
    ([ shutdown] : List Response) ≠ [] ∧
    ([ shutdown] : List Response).getLast? = some shutdown := by
  refine ⟨rfl, ?_⟩
  exact c4_lifecycle_signals.2.2.2.2 [some cmdShutdown] envReq2 0 [ shutdown] rfl

/-! ## Claim C5 -/

/-- C5: an entry whose `func` value is none of the registered names
(`initialize`, `describe_screen`, `shutdown`) dispatches, without raising,
to exactly `Result{success: false, message: "Unknown function call"}` with
no stop signal, and the invocation loop continues with the remaining
entries. -/
theorem c5_unknown_function (kvs : List (List Nat × JValue)) (env : ApiOutcome)
    (rest : List JValue) (envs : Nat → ApiOutcome) (i : Nat)
    (h1 : isStr (lookupD kvs (asciiBytes "func") JValue.jnull) (asciiBytes "initialize") = false)
    (h2 : isStr (lookupD kvs (asciiBytes "func") JValue.jnull)
      (asciiBytes "describe_screen") = false)
    (h3 : isStr (lookupD kvs (asciiBytes "func") JValue.jnull) (asciiBytes "shutdown") = false) :
    dispatchToolCall (JValue.jobj kvs) env = Except.ok (resp_unknown, false) ∧
    resp_unknown = { success := false, message := some (asciiBytes "Unknown function call") } ∧
    processToolCalls (JValue.jobj kvs :: rest) envs i =
      (match processToolCalls rest envs (i + 1) with
       | Except.error e => Except.error e
       | Except.ok p => Except.ok (resp_unknown :: p.1, p.2)) := by
  have hd : ∀ env2, dispatchToolCall (JValue.jobj kvs) env2 = Except.ok (resp_unknown, false) := by
    intro env2
    unfold dispatchToolCall dispatchFunc
    simp [h1, h2, h3]
  exact ⟨hd env, rfl, by simp [processToolCalls, hd (envs i)]⟩

/-- C5, witness: evaluated at the function name `bogus`. -/
theorem c5_witness :
    dispatchToolCall (JValue.jobj [(asciiBytes "func", JValue.jstr (asciiBytes "bogus"))])
      ApiOutcome.reqException = Except.ok (resp_unknown, false) ∧
    resp_unknown = { success := false, message := some (asciiBytes "Unknown function call") } ∧
    processToolCalls [JValue.jobj [(asciiBytes "func", JValue.jstr (asciiBytes "bogus"))]]
      (fun _ => ApiOutcome.reqException) 0 =
      (match processToolCalls [] (fun _ => ApiOutcome.reqException) (0 + 1) with
       | Except.error e => Except.error e
       | Except.ok p => Except.ok (resp_unknown :: p.1, p.2)) :=
  c5_unknown_function _ _ _ _ _ (by decide) (by decide) (by decide)

/-! ## Claim C9 -/

/-- C9: a decoded Command without a `tool_calls` key yields an empty
invocation list — the cycle writes nothing and does not stop — and an entry
without a `params` key is dispatched with an empty parameter map. -/
theorem c9_defaults :
    (∀ kvs envs, lookupV kvs (asciiBytes "tool_calls") = none →
      process_command (JValue.jobj kvs) envs = Except.ok ([], false)) ∧
    (∀ kvs env, lookupV kvs (asciiBytes "params") = none →
      dispatchToolCall (JValue.jobj kvs) env =
        dispatchFunc (lookupD kvs (asciiBytes "func") JValue.jnull) (JValue.jobj []) env) := by
  constructor
  · intro kvs envs h
    simp [process_command, lookupD, h, iterVal, processToolCalls]
  · intro kvs env h
    simp [dispatchToolCall, lookupD, h]

/-- C9, witness: evaluated at an empty command object and an entry holding
only a `func` key. -/
theorem c9_witness :
    process_command (JValue.jobj []) (fun _ => ApiOutcome.reqException) =
      Except.ok ([], false) ∧
    dispatchToolCall (JValue.jobj [(asciiBytes "func",
        JValue.jstr (asciiBytes "describe_screen"))]) ApiOutcome.reqException =
      dispatchFunc
        (lookupD [(asciiBytes "func", JValue.jstr (asciiBytes "describe_screen"))]
          (asciiBytes "func") JValue.jnull)
        (JValue.jobj []) ApiOutcome.reqException :=
  ⟨c9_defaults.1 [] _ rfl, c9_defaults.2 _ _ rfl⟩

/-! ## Claim C10 -/

/-- C10: an entry whose `func` key is missing or explicitly `null` does not
raise and is not skipped — it routes to the unknown-function branch,
producing `Result{success: false, message: "Unknown function call"}`, and
the loop continues with the remaining entries. -/
theorem c10_missing_func (kvs : List (List Nat × JValue)) (env : ApiOutcome)
    (rest : List JValue) (envs : Nat → ApiOutcome) (i : Nat)
    (h : lookupD kvs (asciiBytes "func") JValue.jnull = JValue.jnull) :
    dispatchToolCall (JValue.jobj kvs) env = Except.ok (resp_unknown, false) ∧
    processToolCalls (JValue.jobj kvs :: rest) envs i =
      (match processToolCalls rest envs (i + 1) with
       | Except.error e => Except.error e
       | Except.ok p => Except.ok (resp_unknown :: p.1, p.2)) := by
  have hd : ∀ env2, dispatchToolCall (JValue.jobj kvs) env2 = Except.ok (resp_unknown, false) := by
    intro env2
    simp only [dispatchToolCall]
    unfold dispatchFunc
    rw [h]
    simp [isStr]
  exact ⟨hd env, by simp [processToolCalls, hd (envs i)]⟩

/-- C10, witness: one entry with an explicit `null` func and one with no
`func` key at all. -/
theorem c10_witness :
    dispatchToolCall (JValue.jobj [(asciiBytes "func", JValue.jnull)])
      ApiOutcome.reqException = Except.ok (resp_unknown, false) ∧
    dispatchToolCall (JValue.jobj [(asciiBytes "params", JValue.jobj [])])
      ApiOutcome.reqException = Except.ok (resp_unknown, false) :=
  ⟨(c10_missing_func [(asciiBytes "func", JValue.jnull)] ApiOutcome.reqException []
      (fun _ => ApiOutcome.reqException) 0 rfl).1,
   (c10_missing_func [(asciiBytes "params", JValue.jobj [])] ApiOutcome.reqException []
      (fun _ => ApiOutcome.reqException) 0 rfl).1⟩

/-! ## Claim C6 -/

/-- C6: a failed read is never fatal and never produces a write.  A
transport failure anywhere in the chunk loop makes `read_command` return
`None`; text that fails JSON decoding makes `read_command` return `None`;
and on a `None` read the Lifecycle Loop writes nothing, stays in `RUNNING`,
and proceeds to the next command. -/
theorem c6_failed_read_non_fatal :
    (∀ (fulls : List (List Nat)) (rest : List (Option (List Nat))),
      (∀ d ∈ fulls, ¬d.length < 4096) →
      readChunksText (fulls.map some ++ none :: rest) = none) ∧
    (∀ reads t, readChunksText reads = some t → jsonParse t = none →
      read_command reads = none) ∧
    (∀ reads, readChunksText reads = none → read_command reads = none) ∧
    (∀ rest envs i, run_loop (none :: rest) envs i = run_loop rest envs (i + 1)) := by
  refine ⟨?_, ?_, ?_, fun rest envs i => rfl⟩
  · intro fulls
    induction fulls with
    | nil =>
      intro rest _
      rfl
    | cons d ds ih =>
      intro rest h
      have hd : ¬d.length < 4096 := h d (by simp)
      simp only [List.map_cons, List.cons_append]
      cases hpc : processChunk d with
      | none => simp [readChunksText, hpc]
      | some t =>
        simp [readChunksText, hpc, hd, ih rest (fun x hx => h x (by simp [hx]))]
  · intro reads t h1 h2
    simp [read_command, h1, h2]
  · intro reads h
    simp [read_command, h]

/-- C6, witness: a transport failure, an undecodable text, and the loop
stepping over a failed read. -/
theorem c6_witness :
    readChunksText [some (asciiBytes "nope")] = some (asciiBytes "nope") ∧
    read_command [some (asciiBytes "nope")] = none ∧
    read_command [none] = none ∧
    run_loop [none] envReq2 0 = run_loop [] envReq2 1 := by
  have h1 : readChunksText [some (asciiBytes "nope")] = some (asciiBytes "nope") :=
    readChunksText_short_ascii _ (by decide) (by decide)
  refine ⟨h1, ?_, ?_, ?_⟩
  · exact c6_failed_read_non_fatal.2.1 [some (asciiBytes "nope")] (asciiBytes "nope") h1 rfl
  · exact c6_failed_read_non_fatal.2.2.1 [none]
      (c6_failed_read_non_fatal.1 [] [] (fun d hd => absurd hd (List.not_mem_nil d)))
  · exact c6_failed_read_non_fatal.2.2.2 [] envReq2 0

/-! ## Claim C7 -/

lemma utf8DecodeAux_e9 (fuel : Nat) (rest : List Nat) :
    utf8DecodeAux (fuel + 1) (195 :: 169 :: rest) =
      (utf8DecodeAux fuel rest).map (fun t => 233 :: t) := by
  simp [utf8DecodeAux]

lemma processChunk_nonascii : processChunk [195, 169] = some [233, 0] := by
  have hz : ∀ b ∈ List.replicate 4094 (0 : Nat), b < 128 := fun b hb => by
    have := List.eq_of_mem_replicate hb
    omega
  have hrec : utf8DecodeAux 4095 (List.replicate 4094 (0 : Nat)) =
      some (List.replicate 4094 0) :=
    utf8DecodeAux_ascii 4095 _ (by rw [List.length_replicate]; omega) hz
  have hstep : utf8Decode ([195, 169] ++ List.replicate (4096 - ([195, 169] : List Nat).length) 0) =
      some (233 :: List.replicate 4094 0) := by
    show utf8Decode (195 :: 169 :: List.replicate 4094 0) = some (233 :: List.replicate 4094 0)
    unfold utf8Decode
    have hlen2 : (195 :: 169 :: List.replicate 4094 (0 : Nat)).length = 4095 + 1 := by
      rw [List.length_cons, List.length_cons, List.length_replicate]
    rw [hlen2, utf8DecodeAux_e9, hrec]
    rfl
  unfold processChunk
  rw [hstep]
  show some ((233 :: List.replicate 4094 0).take 2) = some [233, 0]
  rw [show (2 : Nat) = 1 + 1 from rfl, List.take_succ_cons, List.take_replicate,
    show min 1 4094 = 1 from rfl, List.replicate_one]

/-- C7, counterexample: the claim's "concatenates the UTF-8-decoded chunks"
fails on the code.  For the single 2-byte chunk `0xC3 0xA9` (the UTF-8
encoding of `é`), the code's `buffer.decode('utf-8')[:message_bytes.value]`
slices the decoded zero-padded buffer by *characters*, yielding `é`
followed by a spurious NUL character, while the decoded chunk itself is
just `é`. -/
theorem c7_chunk_counterexample :
    readChunksText [some [195, 169]] = some [233, 0] ∧
    specReadText [some [195, 169]] = some [233] ∧
    readChunksText [some [195, 169]] ≠ specReadText [some [195, 169]] := by
  have h1 : readChunksText [some [195, 169]] = some [233, 0] := by
    unfold readChunksText
    rw [processChunk_nonascii]
    simp
  have h2 : specReadText [some [195, 169]] = some [233] := by rfl
  refine ⟨h1, h2, ?_⟩
  rw [h1, h2]
  simp

/-- C7 (amended): `read_command` reads bounded chunks of capacity 4096
bytes, loops while each chunk fills the buffer and stops at the first short
chunk (later reads are not consumed); each chunk contributes the first
`n` *characters* of the UTF-8 decoding of the zero-padded buffer (`n` = the
chunk's byte count), which for all-ASCII chunks equals the decoded chunk
itself, so that for ASCII input the message text is the concatenation of
the decoded chunks in arrival order; and a message that is an exact
multiple of the capacity terminates only after an additional short or empty
read. -/
theorem c7_chunked_reading :
    (∀ (fulls : List (List Nat)) (short : List Nat) (extra : List (Option (List Nat))),
      (∀ d ∈ fulls, d.length = 4096) → short.length < 4096 →
      (∀ d ∈ fulls, ∀ b ∈ d, b < 128) → (∀ b ∈ short, b < 128) →
      readChunksText ((fulls ++ [short]).map some ++ extra) =
        some (fulls.flatten ++ short)) ∧
    (∀ d : List Nat, d.length = 4096 → (∀ b ∈ d, b < 128) →
      readChunksText [some d] = none ∧ readChunksText [some d, some []] = some d) := by
  constructor
  · intro fulls
    induction fulls with
    | nil =>
      intro short extra h4096 hshort hfa hsa
      simp only [List.nil_append, List.map_cons, List.map_nil, List.cons_append,
        List.flatten_nil]
      simp [readChunksText, processChunk_ascii short (by omega) hsa, hshort]
    | cons d ds ih =>
      intro short extra h4096 hshort hfa hsa
      have hd4096 : d.length = 4096 := h4096 d (by simp)
      have hda : ∀ b ∈ d, b < 128 := hfa d (by simp)
      have ih2 := ih short extra (fun x hx => h4096 x (by simp [hx])) hshort
        (fun x hx => hfa x (by simp [hx])) hsa
      simp only [List.map_append, List.map_cons, List.map_nil, List.append_assoc,
        List.cons_append, List.nil_append] at ih2
      simp only [List.cons_append, List.map_cons]
      simp [readChunksText, processChunk_ascii d (by omega) hda,
        (show ¬d.length < 4096 by omega), ih2]
  · intro d hlen hda
    constructor
    · simp [readChunksText, processChunk_ascii d (by omega) hda,
        (show ¬d.length < 4096 by omega)]
    · simp [readChunksText, processChunk_ascii d (by omega) hda,
        processChunk_ascii [] (by simp) (by simp),
        (show ¬d.length < 4096 by omega)]

/-- C7, witness: two full ASCII chunks followed by a short one concatenate
in order with the trailing read ignored, and an exact-multiple message needs
the extra empty read. -/
theorem c7_witness :
    readChunksText (([List.replicate 4096 97, List.replicate 4096 98] ++
        [[99]]).map some ++ [none]) =
      some (([List.replicate 4096 97, List.replicate 4096 98] :
        List (List Nat)).flatten ++ [99]) ∧
    readChunksText [some (List.replicate 4096 97)] = none ∧
    readChunksText [some (List.replicate 4096 97), some []] =
      some (List.replicate 4096 97) := by
  have hfa : ∀ d ∈ [List.replicate 4096 (97 : Nat), List.replicate 4096 98],
      ∀ b ∈ d, b < 128 := by
    intro d hd b hb
    rcases List.mem_cons.mp hd with rfl | hd2
    · have := List.eq_of_mem_replicate hb; omega
    · rcases List.mem_cons.mp hd2 with rfl | hd3
      · have := List.eq_of_mem_replicate hb; omega
      · exact absurd hd3 (List.not_mem_nil _)
  have hmem : ∀ d ∈ [List.replicate 4096 (97 : Nat), List.replicate 4096 98],
      d.length = 4096 := by
    intro d hd
    rcases List.mem_cons.mp hd with rfl | hd2
    · rw [List.length_replicate]
    · rcases List.mem_cons.mp hd2 with rfl | hd3
      · rw [List.length_replicate]
      · exact absurd hd3 (List.not_mem_nil _)
  have hsa : ∀ b ∈ ([99] : List Nat), b < 128 := by
    intro b hb
    rcases List.mem_cons.mp hb with rfl | hb2
    · omega
    · exact absurd hb2 (List.not_mem_nil _)
  have h1 := c7_chunked_reading.1 [List.replicate 4096 97, List.replicate 4096 98] [99] [none]
    hmem (by norm_num) hfa hsa
  have h2 := c7_chunked_reading.2 (List.replicate 4096 97) (by rw [List.length_replicate])
    (fun b hb => by have := List.eq_of_mem_replicate hb; omega)
  exact ⟨h1, h2.1, h2.2⟩

end VisualPlugin
